import Mathlib

/-!
# Verification of the ETL pipeline core (extract / transform / load / orchestrate)

Shallow embedding of the Python ETL engine under `src/`:

* `src/extract/paginator.py`       — pagination exhaustion (`Paginator.iterate`, `fetch_all`)
* `src/extract/api_client.py`      — retry/backoff policy of `FWCAPIClient._make_request`
* `src/load/bulk_loader.py`        — chunked `MERGE` upserts of `BulkLoader`
* `src/transform/base_transformer.py` — per-record isolation in `BaseTransformer.transform`
* `src/core/pipeline.py` + `src/core/interfaces.py` — `Pipeline.run` and step wrappers
* `src/orchestrator/state_manager.py` — job lifecycle rows
* `src/orchestrator/pipeline.py`   — fan-out per award code, `run_full_etl`,
  `run_single_pipeline`
* `src/utils/helpers.py`           — `chunk_list`

Python dictionaries carrying row/record data are modelled as association lists
`Rec := List (String × Option String)`: a column name paired with its value,
`none` standing for Python `None` / SQL `NULL`.  Field values of other runtime
types (numbers, datetimes) are abstracted into `String`; no claim below depends
on the internal structure of a field value, only on equality and nullness.
-/

set_option autoImplicit false

namespace ETL

/-- A raw / canonical record or a database row: column name ↦ value,
`none` being Python `None` / SQL `NULL`. -/
abbrev Rec : Type := List (String × Option String)

/-- Value of column `c` in record `r`: the first entry named `c`
(Python dict keys are unique), `none` when the column is absent. -/
def getCol (r : Rec) (c : String) : Option String :=
  match r with
  | [] => none
  | p :: ps => if p.1 = c then p.2 else getCol ps c

/-! ## Paginator (`src/extract/paginator.py`)

`PaginationMeta` keeps the fields read from the `_meta` object of a response
(`meta.get("has_more_results", False)` etc.).  A `PageResponse` models the JSON
body: the records may sit under `results` or `data`, and `_meta` may be absent.
An absent key is `none`; a present-but-empty `_meta` dict is falsy in
`if meta_dict:` exactly like an absent one, so it is also modelled by `none`. -/

structure PaginationMeta where
  current_page : Nat := 1
  page_count : Nat := 1
  limit : Nat := 100
  result_count : Nat := 0
  has_more_results : Bool := false
  has_previous_results : Bool := false
  deriving Repr, DecidableEq

/-- One JSON response of the fetch function. -/
structure PageResponse where
  results : Option (List Rec) := none
  data : Option (List Rec) := none
  meta : Option PaginationMeta := none
  deriving Repr

namespace Paginator

/-- `records = response.get("results") or response.get("data", [])`:
a present but empty `results` list is falsy, so `data` is used instead. -/
def recordsOf (resp : PageResponse) : List Rec :=
  match resp.results with
  | some l => if l.isEmpty then resp.data.getD [] else l
  | none => resp.data.getD []

/-- `has_more` after a page: `meta.has_more_results` when metadata is present,
otherwise `False` ("fallback: if no metadata, assume single page"). -/
def hasMoreOf (resp : PageResponse) : Bool :=
  match resp.meta with
  | some m => m.has_more_results
  | none => false

/-- `if self.max_pages and page > self.max_pages: break` — the cap only fires
when `max_pages` is truthy (neither `None` nor `0`). -/
def capHit (maxPages : Option Nat) (page : Nat) : Bool :=
  match maxPages with
  | none => false
  | some m => m != 0 && page > m

/-- The pages yielded by `Paginator.iterate`, starting at `page`.  The Python
loop `while has_more:` need not terminate (a fetch function may report
`has_more_results=true` forever), so the model carries `fuel`: with fuel `0`
no further iteration is modelled.  Every claim below supplies enough fuel for
the run it describes.  A page with an empty record list is not yielded
(`if records: yield records`), but the loop still advances. -/
def iteratePages (fetch : Nat → PageResponse) (maxPages : Option Nat) :
    Nat → Nat → List (List Rec)
  | _, 0 => []
  | page, fuel + 1 =>
    if capHit maxPages page then []
    else
      let resp := fetch page
      let recs := recordsOf resp
      (if recs.isEmpty then [] else [recs]) ++
        (if hasMoreOf resp then iteratePages fetch maxPages (page + 1) fuel else [])

/-- `Paginator.fetch_all`: concatenation of all yielded pages, from page 1. -/
def fetchAll (fetch : Nat → PageResponse) (maxPages : Option Nat) (fuel : Nat) :
    List Rec :=
  (iteratePages fetch maxPages 1 fuel).flatten

end Paginator

namespace Paginator

/-- The fetch function of §8's pagination scenario: page `p` carries one
record naming its page, and `has_more_results` is `true` exactly on pages 1–3. -/
def scenarioFetch : Nat → PageResponse := fun p =>
  { results := some [[("page", some (toString p))]],
    meta := some { has_more_results := decide (p ≤ 3) } }


end Paginator


/-! ## `chunk_list` (`src/utils/helpers.py`)

`chunk_list(data, chunk_size)` is
`[data[i : i + chunk_size] for i in range(0, len(data), chunk_size)]`.
The recursion is driven by a fuel argument initialised to `data.length` so that
the definition is structural (and hence computes by `rfl`/`decide`); with that
fuel it peels exactly the slices the Python comprehension produces.
`chunk_size = 0` would make Python's `range` raise `ValueError`; the model
returns `[]` there and every claim assumes a positive batch size. -/

namespace Helpers

def chunkListGo {α : Type} (n : Nat) : Nat → List α → List (List α)
  | _, [] => []
  | 0, _ :: _ => []
  | fuel + 1, x :: xs => (x :: xs).take n :: chunkListGo n fuel ((x :: xs).drop n)

def chunkList {α : Type} (l : List α) (n : Nat) : List (List α) :=
  if n = 0 then [] else chunkListGo n l.length l

end Helpers

/-! ## BulkLoader (`src/load/bulk_loader.py`)

`BulkLoader.load` splits the record list into `chunk_list` batches and runs
`_upsert_batch` on each (the orchestrator always constructs the loader with
`upsert=True` and declared `key_columns`).  `_upsert_batch` builds one
SQL-Server `MERGE` statement from the columns of the first record of the batch
and executes it once per record of the batch, committing the batch as a whole.

The destination table is modelled as `List Rec`.  The `MERGE` is modelled per
record:

* `ON target.c = source.c AND ...` over `key_columns` — SQL equality, in which
  a comparison against `NULL` is never true (`sqlEq`);
* `WHEN MATCHED THEN UPDATE SET target.c = source.c` over
  `update_columns = [c for c in columns if c not in key_columns]` (`setCols`);
* `WHEN NOT MATCHED THEN INSERT (columns) VALUES (source values)`
  (`insertRow`).

`_clean_record` maps Python `None` to SQL `NULL` and leaves scalars alone; the
model keeps the `Option String` values as they are.  The per-batch retry loop
of the source only re-runs a batch after a rolled-back failure, so a batch
that succeeds is modelled by its single successful execution. -/

namespace BulkLoader

/-- SQL equality of two stored values: `NULL = x` is not a match. -/
def sqlEq (a b : Option String) : Bool :=
  match a, b with
  | some x, some y => x == y
  | _, _ => false

/-- The `ON` clause: target row `t` matches source record `r` on every
declared key column. -/
def rowMatches (keyCols : List String) (r t : Rec) : Bool :=
  keyCols.all (fun c => sqlEq (getCol t c) (getCol r c))

/-- `UPDATE SET target.c = source.c` for every update column. -/
def setCols (ucols : List String) (r t : Rec) : Rec :=
  t.map (fun p => if p.1 ∈ ucols then (p.1, getCol r p.1) else p)

/-- `INSERT (columns) VALUES (source values)`. -/
def insertRow (cols : List String) (r : Rec) : Rec :=
  cols.map (fun c => (c, getCol r c))

/-- Effect of one `MERGE` execution on one target row. -/
def condUpd (keyCols ucols : List String) (r t : Rec) : Rec :=
  if rowMatches keyCols r t then setCols ucols r t else t

/-- One `MERGE` execution against the whole table: update every matched row,
or append the inserted row when nothing matched. -/
def upsertOne (keyCols cols ucols : List String) (T : List Rec) (r : Rec) :
    List Rec :=
  if T.any (rowMatches keyCols r) then T.map (condUpd keyCols ucols r)
  else T ++ [insertRow cols r]

/-- `_upsert_batch`: columns and update columns are taken from the first
record of the batch, then the `MERGE` runs once per record. -/
def upsertBatch (keyCols : List String) (T : List Rec) (batch : List Rec) :
    List Rec :=
  match batch with
  | [] => T
  | r0 :: _ =>
    let cols := r0.map Prod.fst
    let ucols := cols.filter (fun c => !(keyCols.contains c))
    batch.foldl (upsertOne keyCols cols ucols) T

/-- `BulkLoader.load` with `upsert=True`: early-return on empty input, then
one `_upsert_batch` per `chunk_list` batch. -/
def loadTable (keyCols : List String) (batchSize : Nat) (T : List Rec)
    (data : List Rec) : List Rec :=
  if data.isEmpty then T
  else (Helpers.chunkList data batchSize).foldl (upsertBatch keyCols) T

/-- Replay of all updates a record sequence performs on one row (proof
device for the idempotence argument; not part of the source). -/
def applyUpd (keyCols ucols : List String) (R : List Rec) (t : Rec) : Rec :=
  R.foldl (fun t r => condUpd keyCols ucols r t) t

/-- The last record of `L` whose `MERGE` would match row `u`. -/
def lastMatcher (keyCols : List String) (L : List Rec) (u : Rec) : Option Rec :=
  (L.filter (fun r => rowMatches keyCols r u)).getLast?

end BulkLoader
/-! ## FWCAPIClient (`src/extract/api_client.py`)

`_make_request` is wrapped by
`@retry(retry=retry_if_exception_type((httpx.TimeoutException,
httpx.NetworkError)), stop=stop_after_attempt(3),
wait=wait_exponential(multiplier=1, min=1, max=10), reraise=True)`.
One HTTP attempt either fails at the transport level (timeout / network
error) or completes with a status code; the body of `_make_request` then maps
401 to `FWCAPIAuthError`, 429 to `FWCAPIRateLimitError` (embedding the
`Retry-After` header value, default `"60"`, into the message only) and any
other status ≥ 400 to `FWCAPIError`.  `tenacity` re-invokes the function only
for the two transport exception types, sleeping
`max(1, min(2^(attempt-1), 10))` seconds after failed attempt number
`attempt`, and with `reraise=True` re-raises the last exception after the
third attempt. -/

namespace FWCAPIClient

/-- What the `k`-th HTTP attempt does, as seen by `_make_request`. -/
inductive AttemptOutcome where
  | timeout
  | networkError
  | response (status : Nat) (retryAfter : Option String) (payload : String)
  deriving Repr, DecidableEq

/-- The exceptions `_make_request` can raise. -/
inductive ReqError where
  | timeoutExc
  | networkExc
  | authError (msg : String)
  | rateLimitError (msg : String)
  | apiError (msg : String)
  deriving Repr, DecidableEq

/-- The status handling of one `_make_request` body execution
(`api_client.py` lines 130–166). -/
def handleOutcome : AttemptOutcome → Except ReqError String
  | .timeout => .error .timeoutExc
  | .networkError => .error .networkExc
  | .response status retryAfter payload =>
    if status = 401 then
      .error (.authError "Invalid or missing API key")
    else if status = 429 then
      .error (.rateLimitError
        ("Rate limit exceeded. Retry after " ++ retryAfter.getD "60" ++
          " seconds"))
    else if 400 ≤ status then
      .error (.apiError ("API request failed with status " ++ toString status))
    else .ok payload

/-- `retry_if_exception_type((httpx.TimeoutException, httpx.NetworkError))`. -/
def isRetryable : ReqError → Bool
  | .timeoutExc => true
  | .networkExc => true
  | _ => false

/-- `wait_exponential(multiplier=1, min=1, max=10)`: the sleep after failed
attempt number `k`. -/
def backoffWait (k : Nat) : Nat := max 1 (min (2 ^ (k - 1)) 10)

/-- Whether an attempt outcome fails with a retryable exception. -/
def retryableFail (o : AttemptOutcome) : Bool :=
  match handleOutcome o with
  | .error e => isRetryable e
  | .ok _ => false

/-- The `tenacity` loop: `rem` remaining retries after the current attempt
`k`; returns the final result, the number of attempts made, and the backoff
sleeps performed.  With `reraise=True` the last exception is re-raised once
attempts are exhausted. -/
def requestGo (outcomes : Nat → AttemptOutcome) :
    Nat → Nat → Except ReqError String × Nat × List Nat
  | 0, k => (handleOutcome (outcomes k), k, [])
  | rem + 1, k =>
    match handleOutcome (outcomes k) with
    | .ok v => (.ok v, k, [])
    | .error e =>
      if isRetryable e then
        let r := requestGo outcomes (rem) (k + 1)
        (r.1, r.2.1, backoffWait k :: r.2.2)
      else (.error e, k, [])

/-- `_make_request` under `stop_after_attempt(3)`: attempt 1 with two retries
in reserve. -/
def makeRequest (outcomes : Nat → AttemptOutcome) :
    Except ReqError String × Nat × List Nat :=
  requestGo outcomes 2 1

end FWCAPIClient

/-! ## Absence of request-rate limiting (C5)

`src/config/settings.py` declares `api_rate_limit: int = Field(default=10,
description="Maximum API requests per second")`, but no code under `src/`
reads it: `FWCAPIClient._make_request` issues the HTTP request as soon as it
is invoked (no timestamp log, no pre-request sleep; the only sleeps are the
retry backoffs after failed attempts).  The timing model below reflects this:
a first-attempt-successful request starts at its invocation time. -/

namespace FWCAPIClient

/-- `settings.api_rate_limit` default ("Maximum API requests per second"). -/
def apiRateLimitDefault : Nat := 10

/-- Start times of a sequence of client requests given their invocation
times: `_make_request` contains no throttling, so each request starts
immediately when invoked. -/
def requestStartTimes (invocationTimes : List Nat) : List Nat :=
  invocationTimes

/-- How many of the given start times fall in the window `[t0, t0+len)`. -/
def countStartedInWindow (times : List Nat) (t0 len : Nat) : Nat :=
  (times.filter (fun t => decide (t0 ≤ t) && decide (t < t0 + len))).length

end FWCAPIClient

/-! ## BaseTransformer (`src/transform/base_transformer.py`)

`BaseTransformer.transform` loops `for i, record in enumerate(records)`,
calls the subclass's `_transform_record`, appends a truthy result (a Python
dict is truthy iff non-empty), swallows a raised exception into
`errors.append(f"Record {i} transformation failed: {e}")`, and finally sets
`context.metadata["transform_errors"] = errors` when any error occurred.
`_transform_record` is modelled as `step : Rec → Except String Rec`
(the context argument is read-only in every subclass and does not influence
the per-record result). -/

namespace BaseTransformer

/-- The slice of `PipelineContext.metadata` the transformer writes:
the `transform_errors` key (`none` = key absent). -/
structure TransformCtx where
  transformErrors : Option (List String) := none
  deriving Repr, DecidableEq

/-- `f"Record {i} transformation failed: {e}"`. -/
def errMsg (i : Nat) (e : String) : String :=
  "Record " ++ toString i ++ " transformation failed: " ++ e

/-- The `enumerate` loop of `transform`: returns the transformed records and
the recorded error strings, starting at index `i`. -/
def transformRecords (step : Rec → Except String Rec) :
    Nat → List Rec → List Rec × List String
  | _, [] => ([], [])
  | i, r :: rs =>
    let rest := transformRecords step (i + 1) rs
    match step r with
    | .ok result => (if result.isEmpty then rest.1 else result :: rest.1, rest.2)
    | .error e => (rest.1, errMsg i e :: rest.2)

/-- `BaseTransformer.transform`: run the loop, then attach the error list to
the context metadata when it is non-empty. -/
def transform (step : Rec → Except String Rec) (records : List Rec)
    (ctx : TransformCtx) : List Rec × TransformCtx :=
  let p := transformRecords step 0 records
  (p.1, if p.2.isEmpty then ctx else { ctx with transformErrors := some p.2 })

end BaseTransformer

/-- A concrete per-record transformation for the §8 scenario: it requires a
`code` field and produces a one-field canonical record. -/
def sampleCodeStep : Rec → Except String Rec := fun r =>
  match getCol r "code" with
  | some v => .ok [("code", some v)]
  | none => .error "missing required field"

/-- Ten raw records of which the one at index 4 lacks the required field. -/
def sampleRecords : List Rec :=
  [[("code", some "c0")], [("code", some "c1")], [("code", some "c2")],
   [("code", some "c3")], [("other", some "x")], [("code", some "c5")],
   [("code", some "c6")], [("code", some "c7")], [("code", some "c8")],
   [("code", some "c9")]]

/-! ## Core pipeline (`src/core/interfaces.py`, `src/core/pipeline.py`)

`StepResult`/`PipelineContext` are modelled without their `datetime` fields
(`start_time`/`end_time` only feed the logged duration; no claim depends on
them).  `context.step_results[name] = result` is dict assignment: the model
prepends and looks up the first hit, which gives dict lookup semantics.

A pipeline stage is modelled as
`Ctx → Ctx × Except String StepResult`: Python mutates the context in place,
so mutations performed before an exception persist — the stage always returns
the updated context, together with either its `StepResult` or a raised
exception.  The `execute` wrappers of `interfaces.py` catch every exception of
the stage body and turn it into a `FAILED` result, so they always return
`.ok`; the `Except` layer keeps `Pipeline.run`'s own `try/except` meaningful
for arbitrary (duck-typed) `execute` overrides. -/

namespace CorePipeline

inductive StepStatus where
  | pending
  | running
  | success
  | failed
  | skipped
  deriving Repr, DecidableEq

/-- The payload of a `StepResult`: record lists for extract/transform, a
loaded-count for load. -/
inductive StepData where
  | recs (rs : List Rec)
  | count (n : Nat)
  deriving Repr, DecidableEq

structure StepResult where
  status : StepStatus
  data : Option StepData := none
  error : Option String := none
  recordsProcessed : Nat := 0
  deriving Repr, DecidableEq

structure PipelineCtx where
  jobId : String
  parameters : List (String × String) := []
  errors : List String := []
  stepResults : List (String × StepResult) := []
  deriving Repr, DecidableEq

/-- `context.add_error`. -/
def addError (ctx : PipelineCtx) (e : String) : PipelineCtx :=
  { ctx with errors := ctx.errors ++ [e] }

/-- `context.set_step_result` (dict assignment; latest entry wins). -/
def setStep (ctx : PipelineCtx) (name : String) (res : StepResult) :
    PipelineCtx :=
  { ctx with stepResults := (name, res) :: ctx.stepResults }

/-- `context.get_step_result`. -/
def getStep (srs : List (String × StepResult)) (name : String) :
    Option StepResult :=
  match srs with
  | [] => none
  | p :: ps => if p.1 = name then some p.2 else getStep ps name

/-- `context.has_errors`: any error string, or any FAILED step. -/
def hasErrors (ctx : PipelineCtx) : Bool :=
  !ctx.errors.isEmpty ||
    ctx.stepResults.any (fun p => p.2.status == StepStatus.failed)

/-- A stage's `execute` as seen by `Pipeline.run`. -/
abbrev StageExec : Type := PipelineCtx → PipelineCtx × Except String StepResult

/-- `Extractor.execute` (`interfaces.py` lines 130–151): run `extract`, wrap
success into a SUCCESS result carrying the records, wrap any exception into a
FAILED result carrying the message. -/
def extractorExecute
    (extract : List (String × String) → PipelineCtx →
      PipelineCtx × Except String (List Rec))
    (params : List (String × String)) (ctx : PipelineCtx) :
    PipelineCtx × StepResult :=
  match extract params ctx with
  | (c, .ok recs) =>
    (c, { status := .success, data := some (.recs recs),
          recordsProcessed := recs.length })
  | (c, .error e) => (c, { status := .failed, error := some e })

/-- `Transformer.execute` / `BaseTransformer.execute` (same wrapping). -/
def transformerExecute
    (tr : List Rec → PipelineCtx → PipelineCtx × Except String (List Rec))
    (input : List Rec) (ctx : PipelineCtx) : PipelineCtx × StepResult :=
  match tr input ctx with
  | (c, .ok recs) =>
    (c, { status := .success, data := some (.recs recs),
          recordsProcessed := recs.length })
  | (c, .error e) => (c, { status := .failed, error := some e })

/-- `Loader.execute` (same wrapping; the payload is the loaded count). -/
def loaderExecute
    (ld : List Rec → PipelineCtx → PipelineCtx × Except String Nat)
    (input : List Rec) (ctx : PipelineCtx) : PipelineCtx × StepResult :=
  match ld input ctx with
  | (c, .ok n) =>
    (c, { status := .success, data := some (.count n),
          recordsProcessed := n })
  | (c, .error e) => (c, { status := .failed, error := some e })

/-- `extract_result.data or []` / `transform_result.data or []`. -/
def dataOr (d : Option StepData) : List Rec :=
  match d with
  | some (.recs l) => l
  | _ => []

/-- Hooks are run with every exception caught and only logged. -/
def runHooks (hooks : List (PipelineCtx → PipelineCtx × Except String Unit))
    (ctx : PipelineCtx) : PipelineCtx :=
  hooks.foldl (fun c h => (h c).1) ctx

/-- `Pipeline.run` (`src/core/pipeline.py` lines 50–161).  The extract stage
receives the parameters, the transform stage the extract data, the load stage
the transform data.  A stage result other than SUCCESS returns the context
immediately from inside the `try` block (skipping the post hooks); a raised
exception is caught at the outer `except`, appended to `context.errors`, and
the post hooks still run. -/
def pipelineRun
    (exE : List (String × String) → StageExec)
    (trE : List Rec → StageExec)
    (ldE : List Rec → StageExec)
    (pre post : List (PipelineCtx → PipelineCtx × Except String Unit))
    (params : List (String × String)) (jobId : String) : PipelineCtx :=
  let ctx0 : PipelineCtx := { jobId := jobId, parameters := params }
  let ctx1 := runHooks pre ctx0
  match exE params ctx1 with
  | (c2, .error e) => runHooks post (addError c2 e)
  | (c2, .ok exRes) =>
    let ctx3 := setStep c2 "extract" exRes
    if exRes.status ≠ .success then ctx3
    else
      match trE (dataOr exRes.data) ctx3 with
      | (c4, .error e) => runHooks post (addError c4 e)
      | (c4, .ok trRes) =>
        let ctx5 := setStep c4 "transform" trRes
        if trRes.status ≠ .success then ctx5
        else
          match ldE (dataOr trRes.data) ctx5 with
          | (c6, .error e) => runHooks post (addError c6 e)
          | (c6, .ok ldRes) =>
            let ctx7 := setStep c6 "load" ldRes
            if ldRes.status ≠ .success then ctx7
            else runHooks post ctx7

end CorePipeline

/-! ## StateManager (`src/orchestrator/state_manager.py`)

One row of the `jobs` table.  Timestamps are modelled as `Nat` instants and
`CURRENT_TIMESTAMP` is passed in as `now`.  A SQL `NULL` text column is an
`Option`.  `completed_at` is written only by `update_job_completion` and
`save_job_result`; `create_job`'s reset branch, `update_job_status` and
`cleanup_pending_jobs` leave it untouched. -/

namespace StateManager

structure JobRow where
  jobId : String
  name : String := ""
  status : String := "pending"
  progress : Nat := 0
  totalRecords : Nat := 0
  processedRecords : Nat := 0
  failedRecords : Nat := 0
  errorMessage : Option String := none
  completedAt : Option Nat := none
  createdAt : Nat := 0
  updatedAt : Nat := 0
  deriving Repr, DecidableEq

abbrev JobStore : Type := List JobRow

/-- `SELECT * FROM jobs WHERE job_id = ?` (`job_id` is unique). -/
def getJob (s : JobStore) (jid : String) : Option JobRow :=
  match s with
  | [] => none
  | r :: rs => if r.jobId = jid then some r else getJob rs jid

/-- `create_job`: reset the existing row to `pending` (clearing progress and
error message but not the completion fields), or insert a fresh row. -/
def createJob (s : JobStore) (jid : String) (name : Option String)
    (now : Nat) : JobStore :=
  if (getJob s jid).isSome then
    s.map (fun r =>
      if r.jobId = jid then
        { r with name := name.getD jid, status := "pending", progress := 0,
                 errorMessage := none, updatedAt := now }
      else r)
  else
    s ++ [{ jobId := jid, name := name.getD jid, status := "pending",
            progress := 0, createdAt := now, updatedAt := now }]

/-- `update_job_status`: status, coalesced progress, optionally the error
message (`if error_message:` — a falsy message is modelled as `none`);
`completed_at` is not among the SET columns. -/
def updateJobStatus (s : JobStore) (jid status : String)
    (progress : Option Nat) (errorMessage : Option String) (now : Nat) :
    JobStore :=
  s.map (fun r =>
    if r.jobId = jid then
      match errorMessage with
      | some em =>
        { r with status := status, progress := progress.getD r.progress,
                 errorMessage := some em, updatedAt := now }
      | none =>
        { r with status := status, progress := progress.getD r.progress,
                 updatedAt := now }
    else r)

/-- `update_job_completion`: status, final counts, error message and
`completed_at = CURRENT_TIMESTAMP`. -/
def updateJobCompletion (s : JobStore) (jid status : String)
    (totalRecords processedRecords failedRecords : Nat)
    (errorMessage : Option String) (now : Nat) : JobStore :=
  s.map (fun r =>
    if r.jobId = jid then
      { r with status := status, totalRecords := totalRecords,
               processedRecords := processedRecords,
               failedRecords := failedRecords, errorMessage := errorMessage,
               completedAt := some now, updatedAt := now }
    else r)

/-- The stale-`pending` selection of `cleanup_pending_jobs`:
`status = 'pending'` and, when an age is given,
`created_at <= datetime('now', '-X seconds')`. -/
def staleSelect (olderThan : Option Nat) (now : Nat) (r : JobRow) : Bool :=
  r.status == "pending" &&
    (match olderThan with
     | none => true
     | some secs => decide (r.createdAt + secs ≤ now))

/-- `cleanup_pending_jobs`: mark the selected jobs `failed` with the fixed
error message; returns the updated store and the count of marked jobs.
`completed_at` is not among the SET columns. -/
def cleanupPendingJobs (s : JobStore) (olderThan : Option Nat) (now : Nat) :
    JobStore × Nat :=
  (s.map (fun r =>
      if staleSelect olderThan now r then
        { r with status := "failed",
                 errorMessage := some "Marked failed by cleanup",
                 updatedAt := now }
      else r),
   (s.filter (staleSelect olderThan now)).length)

/-- The methods the `StateManager` class actually defines
(`state_manager.py`); Python attribute lookup on any other name raises
`AttributeError`. -/
def stateManagerMethods : List String :=
  ["initialize", "create_job", "update_job_status", "update_job_completion",
   "get_job", "list_jobs", "get_job_count", "add_job_log", "get_job_logs",
   "delete_job", "cleanup_pending_jobs", "save_job_result", "get_job_steps",
   "get_recent_job_stats"]

/-- Whether `self.state_manager.update_job(...)` can resolve. -/
def updateJobExists : Bool := stateManagerMethods.contains "update_job"

end StateManager

/-! ## ETLOrchestrator (`src/orchestrator/pipeline.py`)

`run_full_etl` creates the job row, runs the awards pipeline, fans out the
four child pipelines per award code collecting `_summarize_context`
summaries, and then calls `self.state_manager.update_job(...)` on both its
success path and inside its `except` handler.  `StateManager` defines no
`update_job` method, so the success path raises `AttributeError`, the
`except` handler re-raises the same `AttributeError`, and the assembled
summary dict is never returned.

The per-entity child sub-pipeline runs are abstracted as
`childCtx entity code`, the `PipelineContext` the corresponding
`Pipeline.run` invocation returns (`pipelineRun` above is total, so the
per-entity `except` branches of the loop are dead).  Durations are omitted
from step summaries along with the `datetime` fields they derive from. -/

namespace ETLOrchestrator

structure StepSummary where
  status : String
  recordsProcessed : Nat
  error : Option String
  deriving Repr, DecidableEq

structure CtxSummary where
  jobId : String
  hasErrors : Bool
  steps : List (String × StepSummary)
  deriving Repr, DecidableEq

/-- `StepStatus.value` (the `str`-enum payload). -/
def statusValue : CorePipeline.StepStatus → String
  | .pending => "pending"
  | .running => "running"
  | .success => "success"
  | .failed => "failed"
  | .skipped => "skipped"

/-- `_summarize_context`. -/
def summarizeContext (ctx : CorePipeline.PipelineCtx) : CtxSummary :=
  { jobId := ctx.jobId,
    hasErrors := CorePipeline.hasErrors ctx,
    steps := ctx.stepResults.map (fun p =>
      (p.1, { status := statusValue p.2.status,
              recordsProcessed := p.2.recordsProcessed,
              error := p.2.error })) }

/-- `results["pipelines"]`. -/
structure PipelinesResults where
  awards : Option CtxSummary := none
  classifications : List (String × CtxSummary) := []
  payRates : List (String × CtxSummary) := []
  expenseAllowances : List (String × CtxSummary) := []
  wageAllowances : List (String × CtxSummary) := []
  deriving Repr, DecidableEq

/-- The per-award fan-out loop (`run_full_etl` lines 189–254): for each award
code, in order, run the classifications / pay-rates / expense-allowances /
wage-allowances sub-pipelines and record each summary under the entity map
keyed by the award code. -/
def fanOut (childCtx : String → String → CorePipeline.PipelineCtx)
    (codes : List String) (init : PipelinesResults) : PipelinesResults :=
  codes.foldl (fun acc code =>
    { acc with
      classifications := acc.classifications ++
        [(code, summarizeContext (childCtx "classifications" code))],
      payRates := acc.payRates ++
        [(code, summarizeContext (childCtx "pay_rates" code))],
      expenseAllowances := acc.expenseAllowances ++
        [(code, summarizeContext (childCtx "expense_allowances" code))],
      wageAllowances := acc.wageAllowances ++
        [(code, summarizeContext (childCtx "wage_allowances" code))] })
    init

/-- `_extract_award_codes`: the distinct truthy `code` values of the extract
step's records (Python iterates a `set`, whose order is unspecified; the
model keeps first occurrences). -/
def extractAwardCodes (ctx : CorePipeline.PipelineCtx) : List String :=
  match CorePipeline.getStep ctx.stepResults "extract" with
  | some res =>
    match res.data with
    | some (.recs rs) =>
      (rs.filterMap (fun r =>
        match getCol r "code" with
        | some c => if c = "" then none else some c
        | none => none)).eraseDups
    | _ => []
  | none => []

/-- What `run_full_etl` returns when it returns. -/
structure RunResults where
  jobId : String
  pipelines : PipelinesResults
  status : Option String := none
  error : Option String := none
  deriving Repr, DecidableEq

/-- The `AttributeError` message for the missing method. -/
def attrErrorUpdateJob : String :=
  "AttributeError: 'StateManager' object has no attribute 'update_job'"

/-- `run_full_etl` (lines 138–290).  `awardsCtx` is the context returned by
the awards pipeline run; `childCtx` the per-(entity, award) child contexts.
After the loop, the success path attempts `state_manager.update_job`; the
attribute is missing, the `except Exception` handler catches the
`AttributeError` and attempts `update_job` again, and that second
`AttributeError` propagates out of `run_full_etl`. -/
def runFullETL (awardsCtx : CorePipeline.PipelineCtx)
    (childCtx : String → String → CorePipeline.PipelineCtx)
    (awardCodesArg : Option (List String))
    (store : StateManager.JobStore) (jobId : String) (now : Nat) :
    Except String RunResults × StateManager.JobStore :=
  let store1 := StateManager.createJob store jobId (some "full_etl") now
  let init : PipelinesResults := { awards := some (summarizeContext awardsCtx) }
  let codes :=
    match awardCodesArg with
    | some cs => if cs.isEmpty then extractAwardCodes awardsCtx else cs
    | none => extractAwardCodes awardsCtx
  let pipelines := fanOut childCtx codes init
  if StateManager.updateJobExists then
    (.ok { jobId := jobId, pipelines := pipelines,
           status := some "success" }, store1)
  else
    (.error attrErrorUpdateJob, store1)

/-- The pipeline types `run_single_pipeline` knows. -/
def pipelineTypes : List String :=
  ["awards", "classifications", "pay_rates", "expense_allowances",
   "wage_allowances"]

/-- The dispatch/precondition part of `run_single_pipeline` (lines 308–327):
unknown types and a missing/falsy `award_code` for a non-awards pipeline
raise `ValueError`; otherwise the selected pipeline would run with the given
params (the run itself is `Pipeline.run`, modelled by `pipelineRun`). -/
def runSinglePipelineDispatch (pipelineType : String)
    (awardCode : Option String) :
    Except String (String × List (String × String)) :=
  if ¬pipelineTypes.contains pipelineType then
    .error ("Unknown pipeline type: " ++ pipelineType)
  else if pipelineType ≠ "awards" ∧ awardCode.getD "" = "" then
    .error ("award_code is required for " ++ pipelineType ++ " pipeline")
  else
    .ok (pipelineType,
      match awardCode with
      | some c => if c = "" then [] else [("award_code", c)]
      | none => [])

end ETLOrchestrator

/-! ## ClassificationsExtractor (`src/extract/extractors/classifications.py`)

Its `extract(self, context)` falls back to `context.data` when the
constructor supplied no award codes, calls `context.add_warning` when a
per-award fetch fails, and ends with `context.set_metadata(...)`.
`PipelineContext` (`src/core/interfaces.py`) defines none of these
attributes, so each of those statements raises `AttributeError`; in
particular the `return []` fallback for "no award codes" is unreachable. -/

namespace ClassificationsExtractor

def attrErrorData : String :=
  "AttributeError: 'PipelineContext' object has no attribute 'data'"

def attrErrorAddWarning : String :=
  "AttributeError: 'PipelineContext' object has no attribute 'add_warning'"

def attrErrorSetMetadata : String :=
  "AttributeError: 'PipelineContext' object has no attribute 'set_metadata'"

/-- Python dict assignment `c["award_code"] = award_code`. -/
def setRecCol (r : Rec) (c : String) (v : Option String) : Rec :=
  match r with
  | [] => [(c, v)]
  | p :: ps => if p.1 = c then (c, v) :: ps else p :: setRecCol ps c v

/-- The per-award loop: fetch all classifications for each code, tag each
record with the award code; a fetch failure reaches
`context.add_warning(...)`, which raises `AttributeError`. -/
def extractLoop (fetchAllFor : String → Except String (List Rec)) :
    List String → Except String (List Rec)
  | [] => .ok []
  | code :: rest =>
    match fetchAllFor code with
    | .ok recs =>
      match extractLoop fetchAllFor rest with
      | .ok more =>
        .ok (recs.map (fun r => setRecCol r "award_code" (some code)) ++ more)
      | .error e => .error e
    | .error _ => .error attrErrorAddWarning

/-- `ClassificationsExtractor.extract`: with no constructor award codes the
`context.data` fallback raises; with codes, the loop runs and the final
`context.set_metadata` raises even on success. -/
def extract (ctorAwardCodes : Option (List String))
    (fetchAllFor : String → Except String (List Rec)) :
    Except String (List Rec) :=
  match ctorAwardCodes with
  | none => .error attrErrorData
  | some [] => .error attrErrorData
  | some codes =>
    match extractLoop fetchAllFor codes with
    | .ok _ => .error attrErrorSetMetadata
    | .error e => .error e

end ClassificationsExtractor

/-- The §8 fan-out scenario: three award codes, of which only the
classifications sub-pipeline of `"A2"` fails (FAILED extract step). -/
def scenarioChild : String → String → CorePipeline.PipelineCtx :=
  fun entity code =>
    if entity = "classifications" ∧ code = "A2" then
      { jobId := code,
        stepResults :=
          [("extract", { status := .failed, error := some "auth error" })] }
    else
      { jobId := code,
        stepResults := [("extract", { status := .success })] }

namespace Paginator

theorem flatten_yield (l : List Rec) (rest : List (List Rec)) :
    ((if l.isEmpty then ([] : List (List Rec)) else [l]) ++ rest).flatten =
      l ++ rest.flatten := by
  cases l <;> simp

theorem iterate_step (fetch : Nat → PageResponse) (maxPages : Option Nat)
    (page fuel : Nat) (hcap : capHit maxPages page = false) :
    (iteratePages fetch maxPages page (fuel + 1)).flatten =
      recordsOf (fetch page) ++
        (if hasMoreOf (fetch page) then
          (iteratePages fetch maxPages (page + 1) fuel).flatten else []) := by
  rw [iteratePages, hcap]
  simp only [Bool.false_eq_true, if_false]
  rw [flatten_yield]
  cases h : hasMoreOf (fetch page) <;> simp [h]

theorem capHit_none (page : Nat) : capHit none page = false := rfl

theorem iterate_capped (fetch : Nat → PageResponse) (maxPages : Option Nat)
    (page fuel : Nat) (hcap : capHit maxPages page = true) :
    iteratePages fetch maxPages page (fuel + 1) = [] := by
  rw [iteratePages, hcap]
  simp

end Paginator

/-- C2: (i) a fetch whose pages 1–3 report `has_more_results=true` and whose
page 4 reports it `false` yields exactly pages 1–4 concatenated in order;
(ii) with `max_pages=2`, only records of pages 1 and 2 are ever returned
(page 2 is reached only when page 1 reported more results), regardless of any
further `has_more_results`; (iii) a page-1 response with no pagination
metadata ends the iteration after that single page. -/
theorem C2_pagination_termination :
    (∀ (fetch : Nat → PageResponse) (fuel : Nat),
      Paginator.hasMoreOf (fetch 1) = true →
      Paginator.hasMoreOf (fetch 2) = true →
      Paginator.hasMoreOf (fetch 3) = true →
      Paginator.hasMoreOf (fetch 4) = false →
      4 ≤ fuel →
      Paginator.fetchAll fetch none fuel =
        Paginator.recordsOf (fetch 1) ++ Paginator.recordsOf (fetch 2) ++
          Paginator.recordsOf (fetch 3) ++ Paginator.recordsOf (fetch 4)) ∧
    (∀ (fetch : Nat → PageResponse) (fuel : Nat),
      3 ≤ fuel →
      Paginator.fetchAll fetch (some 2) fuel =
        Paginator.recordsOf (fetch 1) ++
          (if Paginator.hasMoreOf (fetch 1) then Paginator.recordsOf (fetch 2)
           else [])) ∧
    (∀ (fetch : Nat → PageResponse) (fuel : Nat),
      1 ≤ fuel → (fetch 1).meta = none →
      Paginator.fetchAll fetch none fuel = Paginator.recordsOf (fetch 1)) := by
  refine ⟨?_, ?_, ?_⟩
  · intro fetch fuel h1 h2 h3 h4 hfuel
    obtain ⟨k, rfl⟩ := Nat.exists_eq_add_of_le hfuel
    unfold Paginator.fetchAll
    rw [show 4 + k = (3 + k) + 1 by omega,
      Paginator.iterate_step fetch none 1 (3 + k) rfl, h1, if_pos rfl,
      show 3 + k = (2 + k) + 1 by omega,
      Paginator.iterate_step fetch none 2 (2 + k) rfl, h2, if_pos rfl,
      show 2 + k = (1 + k) + 1 by omega,
      Paginator.iterate_step fetch none 3 (1 + k) rfl, h3, if_pos rfl,
      show 1 + k = k + 1 by omega,
      Paginator.iterate_step fetch none 4 k rfl, h4]
    simp
  · intro fetch fuel hfuel
    obtain ⟨k, rfl⟩ := Nat.exists_eq_add_of_le hfuel
    unfold Paginator.fetchAll
    rw [show 3 + k = (2 + k) + 1 by omega,
      Paginator.iterate_step fetch (some 2) 1 (2 + k) (by decide)]
    cases h1 : Paginator.hasMoreOf (fetch 1)
    · simp
    · rw [if_pos rfl,
        show 2 + k = (1 + k) + 1 by omega,
        Paginator.iterate_step fetch (some 2) 2 (1 + k) (by decide)]
      rw [show 1 + k = k + 1 by omega,
        Paginator.iterate_capped fetch (some 2) 3 k (by decide)]
      cases h2 : Paginator.hasMoreOf (fetch 2) <;> simp
  · intro fetch fuel hfuel hmeta
    obtain ⟨k, rfl⟩ := Nat.exists_eq_add_of_le hfuel
    unfold Paginator.fetchAll
    rw [show 1 + k = k + 1 by omega,
      Paginator.iterate_step fetch none 1 k rfl]
    have : Paginator.hasMoreOf (fetch 1) = false := by
      unfold Paginator.hasMoreOf
      rw [hmeta]
    rw [this]
    simp

/-- Witness for C2 at the concrete scenario fetch function. -/
theorem C2_pagination_termination_witness :
    Paginator.fetchAll Paginator.scenarioFetch none 6 =
        [[("page", some "1")], [("page", some "2")], [("page", some "3")],
         [("page", some "4")]] ∧
      Paginator.fetchAll Paginator.scenarioFetch (some 2) 6 =
        [[("page", some "1")], [("page", some "2")]] ∧
      Paginator.fetchAll (fun _ => { results := some [[("k", some "v")]] }) none
          6 = [[("k", some "v")]] := by
  refine ⟨?_, ?_, ?_⟩
  · rw [C2_pagination_termination.1 Paginator.scenarioFetch 6 rfl rfl rfl rfl
      (by omega)]
    rfl
  · rw [C2_pagination_termination.2.1 Paginator.scenarioFetch 6 (by omega)]
    rfl
  · rw [C2_pagination_termination.2.2 (fun _ => { results := some [[("k", some "v")]] })
      6 (by omega) rfl]
    rfl

/-! ### Record-level lemmas for the upsert model -/

namespace BulkLoader

theorem getCol_insertRow {cols : List String} (r : Rec) {c : String}
    (hc : c ∈ cols) : getCol (insertRow cols r) c = getCol r c := by
  induction cols with
  | nil => cases hc
  | cons c0 cs ih =>
    by_cases h : c0 = c
    · subst h
      simp [insertRow, getCol]
    · have hc' : c ∈ cs := by
        cases hc with
        | head => exact absurd rfl h
        | tail _ h' => exact h'
      simpa [insertRow, getCol, h] using ih hc'

theorem getCol_setCols_not_mem {ucols : List String} (r t : Rec) {c : String}
    (hc : c ∉ ucols) : getCol (setCols ucols r t) c = getCol t c := by
  induction t with
  | nil => rfl
  | cons p ps ih =>
    by_cases h : p.1 = c
    · by_cases hu : p.1 ∈ ucols
      · exact absurd (h ▸ hu) hc
      · simp [setCols, getCol, hu, h, hc]
    · by_cases hu : p.1 ∈ ucols <;> simpa [setCols, getCol, hu, h] using ih

theorem sqlEq_self (a : Option String) : sqlEq a a = a.isSome := by
  cases a <;> simp [sqlEq]

theorem rowMatches_ext {keyCols : List String} (r t1 t2 : Rec)
    (h : ∀ c ∈ keyCols, getCol t1 c = getCol t2 c) :
    rowMatches keyCols r t1 = rowMatches keyCols r t2 := by
  unfold rowMatches
  induction keyCols with
  | nil => rfl
  | cons c cs ih =>
    simp only [List.all_cons]
    rw [h c (List.mem_cons_self c cs),
      ih (fun c' hc' => h c' (List.mem_cons_of_mem c hc'))]

theorem rowMatches_setCols {keyCols ucols : List String}
    (hd : ∀ c ∈ keyCols, c ∉ ucols) (r' r t : Rec) :
    rowMatches keyCols r' (setCols ucols r t) = rowMatches keyCols r' t :=
  rowMatches_ext r' _ t (fun c hc => getCol_setCols_not_mem r t (hd c hc))

theorem rowMatches_condUpd {keyCols ucols : List String}
    (hd : ∀ c ∈ keyCols, c ∉ ucols) (r' r t : Rec) :
    rowMatches keyCols r' (condUpd keyCols ucols r t) = rowMatches keyCols r' t := by
  unfold condUpd
  by_cases h : rowMatches keyCols r t
  · rw [if_pos h, rowMatches_setCols hd]
  · rw [if_neg h]

theorem setCols_setCols (ucols : List String) (r r' t : Rec) :
    setCols ucols r (setCols ucols r' t) = setCols ucols r t := by
  unfold setCols
  rw [List.map_map]
  apply List.map_congr_left
  intro p _
  by_cases h : p.1 ∈ ucols <;> simp [h]

theorem setCols_insertRow_self (ucols cols : List String) (r : Rec) :
    setCols ucols r (insertRow cols r) = insertRow cols r := by
  unfold setCols insertRow
  rw [List.map_map]
  apply List.map_congr_left
  intro c _
  by_cases h : c ∈ ucols <;> simp [h]

theorem rowMatches_insertRow_self {keyCols cols : List String}
    (hkc : ∀ c ∈ keyCols, c ∈ cols) (r : Rec)
    (hgood : ∀ c ∈ keyCols, (getCol r c).isSome) :
    rowMatches keyCols r (insertRow cols r) = true := by
  unfold rowMatches
  rw [List.all_eq_true]
  intro c hc
  rw [getCol_insertRow r (hkc c hc), sqlEq_self]
  exact hgood c hc

theorem applyUpd_nil (keyCols ucols : List String) (t : Rec) :
    applyUpd keyCols ucols [] t = t := rfl

theorem applyUpd_cons (keyCols ucols : List String) (r : Rec) (L : List Rec)
    (t : Rec) :
    applyUpd keyCols ucols (r :: L) t =
      applyUpd keyCols ucols L (condUpd keyCols ucols r t) := rfl

theorem applyUpd_concat (keyCols ucols : List String) (L : List Rec) (x t : Rec) :
    applyUpd keyCols ucols (L ++ [x]) t =
      condUpd keyCols ucols x (applyUpd keyCols ucols L t) := by
  unfold applyUpd
  rw [List.foldl_append]
  rfl

theorem rowMatches_applyUpd {keyCols ucols : List String}
    (hd : ∀ c ∈ keyCols, c ∉ ucols) (r' : Rec) (L : List Rec) (u : Rec) :
    rowMatches keyCols r' (applyUpd keyCols ucols L u) = rowMatches keyCols r' u := by
  induction L generalizing u with
  | nil => rfl
  | cons a L ih =>
    rw [applyUpd_cons, ih, rowMatches_condUpd hd]

theorem lastMatcher_concat (keyCols : List String) (L : List Rec) (x u : Rec) :
    lastMatcher keyCols (L ++ [x]) u =
      if rowMatches keyCols x u then some x else lastMatcher keyCols L u := by
  unfold lastMatcher
  rw [List.filter_append]
  by_cases h : rowMatches keyCols x u
  · simp [h, List.getLast?_concat]
  · simp [h]

theorem applyUpd_eq_lastMatcher {keyCols ucols : List String}
    (hd : ∀ c ∈ keyCols, c ∉ ucols) (L : List Rec) (u : Rec) :
    applyUpd keyCols ucols L u =
      match lastMatcher keyCols L u with
      | none => u
      | some r => setCols ucols r u := by
  induction L using List.reverseRecOn with
  | nil => rfl
  | append_singleton L x ih =>
    rw [applyUpd_concat, lastMatcher_concat]
    unfold condUpd
    rw [rowMatches_applyUpd hd]
    by_cases hm : rowMatches keyCols x u
    · rw [if_pos hm, if_pos hm, ih]
      cases hlm : lastMatcher keyCols L u with
      | none => rfl
      | some r' => exact setCols_setCols ucols x r' u
    · rw [if_neg hm, if_neg hm, ih]

theorem applyUpd_lastMatcher_none {keyCols ucols : List String}
    (hd : ∀ c ∈ keyCols, c ∉ ucols) {L : List Rec} {u : Rec}
    (h : lastMatcher keyCols L u = none) :
    applyUpd keyCols ucols L u = u := by
  have hc := applyUpd_eq_lastMatcher hd L u
  rw [h] at hc
  exact hc

theorem applyUpd_lastMatcher_some {keyCols ucols : List String}
    (hd : ∀ c ∈ keyCols, c ∉ ucols) {L : List Rec} {u r : Rec}
    (h : lastMatcher keyCols L u = some r) :
    applyUpd keyCols ucols L u = setCols ucols r u := by
  have hc := applyUpd_eq_lastMatcher hd L u
  rw [h] at hc
  exact hc

theorem sqlEq_true_iff (a b : Option String) :
    sqlEq a b = true ↔ ∃ v, a = some v ∧ b = some v := by
  cases a with
  | none => simp [sqlEq]
  | some x =>
    cases b with
    | none => simp [sqlEq]
    | some y =>
      constructor
      · intro h
        have hxy : x = y := by simpa [sqlEq] using h
        exact ⟨y, by rw [hxy], rfl⟩
      · rintro ⟨v, hx, hy⟩
        rw [Option.some_inj] at hx hy
        simp [sqlEq, hx.trans hy.symm]

theorem lastMatcher_congr {keyCols : List String} (L : List Rec) (u1 u2 : Rec)
    (h : ∀ r ∈ L, rowMatches keyCols r u1 = rowMatches keyCols r u2) :
    lastMatcher keyCols L u1 = lastMatcher keyCols L u2 := by
  unfold lastMatcher
  rw [List.filter_congr h]

theorem rowMatches_of_matches_common {keyCols cols : List String}
    (hkc : ∀ c ∈ keyCols, c ∈ cols) (r' x t : Rec)
    (h1 : rowMatches keyCols r' (insertRow cols x) = true)
    (h2 : rowMatches keyCols r' t = true) :
    rowMatches keyCols x t = true := by
  unfold rowMatches at *
  rw [List.all_eq_true] at *
  intro c hc
  have e1 := h1 c hc
  have e2 := h2 c hc
  rw [getCol_insertRow x (hkc c hc)] at e1
  rw [sqlEq_true_iff] at *
  obtain ⟨v, hins, hr'⟩ := e1
  obtain ⟨w, ht, hr''⟩ := e2
  exact ⟨v, ht.trans (by rw [hr''.symm.trans hr']), hins⟩

/-- Persistence: once a record of the load has been processed, some row of the
table matches it, and that stays true for the rest of the fold. -/
theorem exists_match_foldl {keyCols cols ucols : List String}
    (hd : ∀ c ∈ keyCols, c ∉ ucols) (hkc : ∀ c ∈ keyCols, c ∈ cols)
    (L : List Rec)
    (hgood : ∀ r ∈ L, ∀ c ∈ keyCols, (getCol r c).isSome)
    (T : List Rec) :
    ∀ r' ∈ L, ∃ t ∈ L.foldl (upsertOne keyCols cols ucols) T,
      rowMatches keyCols r' t = true := by
  induction L using List.reverseRecOn generalizing T with
  | nil => intro r' h; cases h
  | append_singleton L x ih =>
    intro r' hr'
    rw [List.foldl_append]
    simp only [List.foldl_cons, List.foldl_nil]
    set U := L.foldl (upsertOne keyCols cols ucols) T with hU
    rcases List.mem_append.1 hr' with hL | hx
    · obtain ⟨t, ht, hmt⟩ :=
        ih (fun r h => hgood r (List.mem_append_left _ h)) T r' hL
      unfold upsertOne
      by_cases hA : U.any (rowMatches keyCols x) = true
      · rw [if_pos hA]
        exact ⟨condUpd keyCols ucols x t, List.mem_map_of_mem _ ht,
          by rw [rowMatches_condUpd hd, hmt]⟩
      · rw [if_neg hA]
        exact ⟨t, List.mem_append_left _ ht, hmt⟩
    · have hx' : r' = x := by simpa using hx
      subst hx'
      unfold upsertOne
      by_cases hA : U.any (rowMatches keyCols r') = true
      · rw [if_pos hA]
        obtain ⟨t, ht, hmt⟩ := List.any_eq_true.1 hA
        exact ⟨condUpd keyCols ucols r' t, List.mem_map_of_mem _ ht,
          by rw [rowMatches_condUpd hd, hmt]⟩
      · rw [if_neg hA]
        refine ⟨insertRow cols r', List.mem_append_right _ (by simp), ?_⟩
        exact rowMatches_insertRow_self hkc r'
          (hgood r' (List.mem_append_right _ (by simp)))

/-- Every row of a loaded table is a fixpoint of replaying the same record
sequence on it: its update columns already hold the last matching record's
values. -/
theorem applyUpd_fixpoint {keyCols cols ucols : List String}
    (hd : ∀ c ∈ keyCols, c ∉ ucols) (hkc : ∀ c ∈ keyCols, c ∈ cols)
    (R : List Rec)
    (hgood : ∀ r ∈ R, ∀ c ∈ keyCols, (getCol r c).isSome)
    (T : List Rec) :
    ∀ u ∈ R.foldl (upsertOne keyCols cols ucols) T,
      applyUpd keyCols ucols R u = u := by
  induction R using List.reverseRecOn generalizing T with
  | nil => intro u _; rfl
  | append_singleton Rd x ih =>
    intro u' hu'
    rw [List.foldl_append] at hu'
    simp only [List.foldl_cons, List.foldl_nil] at hu'
    set U := Rd.foldl (upsertOne keyCols cols ucols) T with hU
    have hgood' : ∀ r ∈ Rd, ∀ c ∈ keyCols, (getCol r c).isSome :=
      fun r h => hgood r (List.mem_append_left _ h)
    rw [applyUpd_concat]
    unfold upsertOne at hu'
    by_cases hA : U.any (rowMatches keyCols x) = true
    · rw [if_pos hA] at hu'
      obtain ⟨u, hu, rfl⟩ := List.mem_map.1 hu'
      have hfix := ih hgood' T u hu
      by_cases hm : rowMatches keyCols x u = true
      · have hcu : condUpd keyCols ucols x u = setCols ucols x u := if_pos hm
        rw [hcu]
        have hlm : lastMatcher keyCols Rd (setCols ucols x u) =
            lastMatcher keyCols Rd u :=
          lastMatcher_congr Rd _ u (fun r _ => rowMatches_setCols hd r x u)
        cases hc : lastMatcher keyCols Rd u with
        | none =>
          have happ := applyUpd_lastMatcher_none hd
            (hlm.trans hc)
          unfold condUpd
          rw [happ, rowMatches_setCols hd, if_pos hm, setCols_setCols]
        | some r' =>
          have happ := applyUpd_lastMatcher_some hd
            (hlm.trans hc)
          have happu := applyUpd_lastMatcher_some hd hc
          have hv : applyUpd keyCols ucols Rd (setCols ucols x u) = u := by
            rw [happ, setCols_setCols, ← happu, hfix]
          unfold condUpd
          rw [hv, if_pos hm]
      · have hcu : condUpd keyCols ucols x u = u := if_neg hm
        rw [hcu, hfix]
        unfold condUpd
        rw [if_neg hm]
    · rw [if_neg hA] at hu'
      have hnomatch : ∀ t ∈ U, rowMatches keyCols x t = false := by
        intro t ht
        by_contra hcon
        exact hA (List.any_eq_true.2 ⟨t, ht, by simpa using hcon⟩)
      rcases List.mem_append.1 hu' with hmem | hins
      · have hfix := ih hgood' T u' hmem
        unfold condUpd
        rw [hfix, hnomatch u' hmem]
        simp
      · have hu'' : u' = insertRow cols x := by simpa using hins
        subst hu''
        have hxgood : ∀ c ∈ keyCols, (getCol x c).isSome :=
          hgood x (List.mem_append_right _ (by simp))
        have hlmnone : lastMatcher keyCols Rd (insertRow cols x) = none := by
          unfold lastMatcher
          have : Rd.filter
              (fun r => rowMatches keyCols r (insertRow cols x)) = [] := by
            rw [List.filter_eq_nil_iff]
            intro r' hr'
            intro hcon
            obtain ⟨t, ht, hmt⟩ := exists_match_foldl hd hkc Rd hgood' T r' hr'
            have := rowMatches_of_matches_common hkc r' x t
              (by simpa using hcon) hmt
            rw [hnomatch t ht] at this
            cases this
          rw [this]
          rfl
        have happ := applyUpd_lastMatcher_none hd hlmnone
        rw [happ]
        unfold condUpd
        rw [if_pos (rowMatches_insertRow_self hkc x hxgood),
          setCols_insertRow_self]

/-- When every record of `L` already matches some row of `U`, the load only
updates in place: it equals mapping the replayed updates over `U`. -/
theorem foldl_eq_map_of_matches {keyCols cols ucols : List String}
    (hd : ∀ c ∈ keyCols, c ∉ ucols) (L : List Rec) :
    ∀ U : List Rec, (∀ r ∈ L, ∃ t ∈ U, rowMatches keyCols r t = true) →
      L.foldl (upsertOne keyCols cols ucols) U =
        U.map (applyUpd keyCols ucols L) := by
  induction L with
  | nil =>
    intro U _
    have h : U.map (applyUpd keyCols ucols []) = U.map id :=
      List.map_congr_left (fun u _ => rfl)
    rw [h, List.map_id]
    rfl
  | cons r L ih =>
    intro U hmatch
    have hA : U.any (rowMatches keyCols r) = true := by
      obtain ⟨t, ht, hmt⟩ := hmatch r (List.mem_cons_self r L)
      exact List.any_eq_true.2 ⟨t, ht, by simpa using hmt⟩
    have hstep : upsertOne keyCols cols ucols U r =
        U.map (condUpd keyCols ucols r) := by
      unfold upsertOne
      rw [if_pos hA]
    rw [List.foldl_cons, hstep,
      ih (U.map (condUpd keyCols ucols r)) ?_, List.map_map]
    · rfl
    · intro r'' hr''
      obtain ⟨t, ht, hmt⟩ := hmatch r'' (List.mem_cons_of_mem r hr'')
      exact ⟨condUpd keyCols ucols r t, List.mem_map_of_mem _ ht,
        by rw [rowMatches_condUpd hd, hmt]⟩

/-- Core absorption (idempotence) result: re-running a whole record list over
the table it produced leaves the table unchanged, provided every record has
non-`NULL` values on every key column and the key columns are record columns. -/
theorem foldl_upsert_absorb {keyCols cols ucols : List String}
    (hd : ∀ c ∈ keyCols, c ∉ ucols) (hkc : ∀ c ∈ keyCols, c ∈ cols)
    (R : List Rec)
    (hgood : ∀ r ∈ R, ∀ c ∈ keyCols, (getCol r c).isSome)
    (T : List Rec) :
    R.foldl (upsertOne keyCols cols ucols)
        (R.foldl (upsertOne keyCols cols ucols) T) =
      R.foldl (upsertOne keyCols cols ucols) T := by
  set U := R.foldl (upsertOne keyCols cols ucols) T with hU
  rw [foldl_eq_map_of_matches hd R U
    (fun r hr => exists_match_foldl hd hkc R hgood T r hr)]
  have : ∀ u ∈ U, applyUpd keyCols ucols R u = u :=
    applyUpd_fixpoint hd hkc R hgood T
  calc U.map (applyUpd keyCols ucols R) = U.map id := by
        apply List.map_congr_left
        intro u hu
        exact this u hu
    _ = U := List.map_id U

theorem upsertBatch_cons (keyCols : List String) (T : List Rec) (r0 : Rec)
    (rest : List Rec) :
    upsertBatch keyCols T (r0 :: rest) =
      (r0 :: rest).foldl
        (upsertOne keyCols (r0.map Prod.fst)
          ((r0.map Prod.fst).filter (fun c => !(keyCols.contains c)))) T := rfl

/-- Folding `_upsert_batch` over the chunks equals folding the per-record
`MERGE` over the full list, when all records share the same column list
(canonical records of one entity type do). -/
theorem chunkListGo_foldl_upsertBatch (keyCols cols : List String) (n : Nat)
    (hn : n ≠ 0) :
    ∀ (fuel : Nat) (l T : List Rec), l.length ≤ fuel →
      (∀ r ∈ l, r.map Prod.fst = cols) →
      (Helpers.chunkListGo n fuel l).foldl (upsertBatch keyCols) T =
        l.foldl
          (upsertOne keyCols cols (cols.filter (fun c => !(keyCols.contains c))))
          T := by
  intro fuel
  induction fuel with
  | zero =>
    intro l T hlen _
    have : l = [] := List.length_eq_zero.1 (Nat.le_zero.1 hlen)
    subst this
    rfl
  | succ fuel ih =>
    intro l T hlen hcols
    cases l with
    | nil => rfl
    | cons x xs =>
      obtain ⟨m, rfl⟩ := Nat.exists_eq_succ_of_ne_zero hn
      rw [Helpers.chunkListGo, List.foldl_cons]
      have htake : (x :: xs).take (m + 1) = x :: xs.take m := rfl
      have hbatch : upsertBatch keyCols T ((x :: xs).take (m + 1)) =
          ((x :: xs).take (m + 1)).foldl
            (upsertOne keyCols cols
              (cols.filter (fun c => !(keyCols.contains c)))) T := by
        rw [htake, upsertBatch_cons, hcols x (List.mem_cons_self x xs)]
      rw [hbatch, ih ((x :: xs).drop (m + 1)) _ ?_ ?_, ← List.foldl_append,
        List.take_append_drop]
      · rw [List.length_drop]
        simp only [List.length_cons] at hlen ⊢
        omega
      · intro r hr
        exact hcols r (List.drop_subset _ _ hr)

/-- `BulkLoader.load` as the per-record `MERGE` fold, for uniform-schema
records and a positive batch size. -/
theorem loadTable_eq_foldl (keyCols cols : List String) (n : Nat) (hn : n ≠ 0)
    (T data : List Rec) (hcols : ∀ r ∈ data, r.map Prod.fst = cols) :
    loadTable keyCols n T data =
      data.foldl
        (upsertOne keyCols cols (cols.filter (fun c => !(keyCols.contains c))))
        T := by
  unfold loadTable
  by_cases hdata : data.isEmpty
  · rw [if_pos hdata]
    rw [List.isEmpty_iff] at hdata
    subst hdata
    rfl
  · rw [if_neg hdata]
    unfold Helpers.chunkList
    rw [if_neg hn]
    exact chunkListGo_foldl_upsertBatch keyCols cols n hn data.length data T
      (Nat.le_refl _) hcols

end BulkLoader

/-- C1 (amended): with every key-column value non-`NULL` (and uniform record
schemas containing the key columns), loading a canonical record list twice
leaves the destination table exactly as loading it once — also when the first
attempt persisted only the records of its first chunks (`R.take m`) before
failing and the load was retried from scratch. -/
theorem C1_bulkloader_idempotent_nonnull_keys
    (keyCols cols : List String) (n : Nat) (T R : List Rec) (m : Nat)
    (hn : n ≠ 0)
    (hkc : ∀ c ∈ keyCols, c ∈ cols)
    (hcols : ∀ r ∈ R, r.map Prod.fst = cols)
    (hgood : ∀ r ∈ R, ∀ c ∈ keyCols, (getCol r c).isSome) :
    BulkLoader.loadTable keyCols n (BulkLoader.loadTable keyCols n T R) R =
        BulkLoader.loadTable keyCols n T R ∧
      BulkLoader.loadTable keyCols n
          (BulkLoader.loadTable keyCols n T (R.take m)) R =
        BulkLoader.loadTable keyCols n T R := by
  have hd : ∀ c ∈ keyCols,
      c ∉ cols.filter (fun c => !(keyCols.contains c)) := by
    intro c hc hmem
    have h2 := (List.mem_filter.1 hmem).2
    have h3 : c ∉ keyCols := by simpa using h2
    exact h3 hc
  have hcolsT : ∀ r ∈ R.take m, r.map Prod.fst = cols :=
    fun r hr => hcols r (List.take_subset m R hr)
  have hgoodT : ∀ r ∈ R.take m, ∀ c ∈ keyCols, (getCol r c).isSome :=
    fun r hr => hgood r (List.take_subset m R hr)
  constructor
  · rw [BulkLoader.loadTable_eq_foldl keyCols cols n hn T R hcols,
      BulkLoader.loadTable_eq_foldl keyCols cols n hn _ R hcols]
    exact BulkLoader.foldl_upsert_absorb hd hkc R hgood T
  · rw [BulkLoader.loadTable_eq_foldl keyCols cols n hn T R hcols,
      BulkLoader.loadTable_eq_foldl keyCols cols n hn T (R.take m) hcolsT,
      BulkLoader.loadTable_eq_foldl keyCols cols n hn _ R hcols]
    calc R.foldl
          (BulkLoader.upsertOne keyCols cols
            (cols.filter (fun c => !(keyCols.contains c))))
          ((R.take m).foldl
            (BulkLoader.upsertOne keyCols cols
              (cols.filter (fun c => !(keyCols.contains c)))) T)
        = (R.take m ++ R.drop m).foldl
            (BulkLoader.upsertOne keyCols cols
              (cols.filter (fun c => !(keyCols.contains c))))
            ((R.take m).foldl
              (BulkLoader.upsertOne keyCols cols
                (cols.filter (fun c => !(keyCols.contains c)))) T) := by
          rw [List.take_append_drop]
      _ = (R.drop m).foldl
            (BulkLoader.upsertOne keyCols cols
              (cols.filter (fun c => !(keyCols.contains c))))
            ((R.take m).foldl
              (BulkLoader.upsertOne keyCols cols
                (cols.filter (fun c => !(keyCols.contains c))))
              ((R.take m).foldl
                (BulkLoader.upsertOne keyCols cols
                  (cols.filter (fun c => !(keyCols.contains c)))) T)) := by
          rw [List.foldl_append]
      _ = (R.drop m).foldl
            (BulkLoader.upsertOne keyCols cols
              (cols.filter (fun c => !(keyCols.contains c))))
            ((R.take m).foldl
              (BulkLoader.upsertOne keyCols cols
                (cols.filter (fun c => !(keyCols.contains c)))) T) := by
          rw [BulkLoader.foldl_upsert_absorb hd hkc (R.take m) hgoodT T]
      _ = R.foldl
            (BulkLoader.upsertOne keyCols cols
              (cols.filter (fun c => !(keyCols.contains c)))) T := by
          rw [← List.foldl_append, List.take_append_drop]

/-- Witness for C1's amended statement at a concrete two-record load (same
key, two chunks of size 1, retry after only the first chunk persisted). -/
theorem C1_bulkloader_idempotent_nonnull_keys_witness :
    BulkLoader.loadTable ["k"] 1
        (BulkLoader.loadTable ["k"] 1 []
          [[("k", some "a"), ("v", some "1")], [("k", some "a"), ("v", some "2")]])
        [[("k", some "a"), ("v", some "1")], [("k", some "a"), ("v", some "2")]] =
      BulkLoader.loadTable ["k"] 1 []
        [[("k", some "a"), ("v", some "1")],
         [("k", some "a"), ("v", some "2")]] ∧
    BulkLoader.loadTable ["k"] 1
        (BulkLoader.loadTable ["k"] 1 []
          ([[("k", some "a"), ("v", some "1")],
            [("k", some "a"), ("v", some "2")]].take 1))
        [[("k", some "a"), ("v", some "1")], [("k", some "a"), ("v", some "2")]] =
      BulkLoader.loadTable ["k"] 1 []
        [[("k", some "a"), ("v", some "1")],
         [("k", some "a"), ("v", some "2")]] :=
  C1_bulkloader_idempotent_nonnull_keys ["k"] ["k", "v"] 1 []
    [[("k", some "a"), ("v", some "1")], [("k", some "a"), ("v", some "2")]] 1
    (by decide) (by decide) (by decide) (by decide)

/-- C1 counterexample: the claim as stated fails on the code.  A canonical
record whose (declared, non-empty) key column holds `NULL` never matches the
`MERGE` `ON` clause under SQL equality, so reloading the identical record set
inserts a second copy: the row count after loading twice is 2, after loading
once it is 1. -/
theorem C1_bulkloader_counterexample :
    (BulkLoader.loadTable ["k"] 200
        (BulkLoader.loadTable ["k"] 200 [] [[("k", none), ("v", some "1")]])
        [[("k", none), ("v", some "1")]]).length = 2 ∧
      (BulkLoader.loadTable ["k"] 200 []
        [[("k", none), ("v", some "1")]]).length = 1 := by
  decide


/-- C4 counterexample: the claim as stated fails on the code.  A 500 response
on attempt 1 (with the source healthy from attempt 2 on) is NOT retried: the
client raises after exactly one attempt with no backoff sleep; likewise a 429
rate-limit response with a `Retry-After: 7` hint raises immediately, the hint
appearing only in the message. -/
theorem C4_retry_counterexample :
    FWCAPIClient.makeRequest
        (fun k => if k = 1 then .response 500 none ""
          else .response 200 none "ok") =
      (.error (.apiError "API request failed with status 500"), 1, []) ∧
    FWCAPIClient.makeRequest
        (fun k => if k = 1 then .response 429 (some "7") ""
          else .response 200 none "ok") =
      (.error (.rateLimitError "Rate limit exceeded. Retry after 7 seconds"),
        1, []) := by
  constructor <;> rfl

/-- C4 (amended): only connection/timeout (transport) failures are retried,
up to 3 attempts with the exponential backoff schedule; a success on attempt
`k ≤ 3` after transport failures returns the result; three transport failures
re-raise the last error; 401, 429 and any other ≥ 400 status raise immediately
after one attempt with no sleep, 429 embedding the source-provided
`Retry-After` hint (default "60") in the message only. -/
theorem C4_retry_policy_amended (outcomes : Nat → FWCAPIClient.AttemptOutcome) :
    (∀ v, FWCAPIClient.handleOutcome (outcomes 1) = .ok v →
      FWCAPIClient.makeRequest outcomes = (.ok v, 1, [])) ∧
    (∀ v, FWCAPIClient.retryableFail (outcomes 1) = true →
      FWCAPIClient.handleOutcome (outcomes 2) = .ok v →
      FWCAPIClient.makeRequest outcomes =
        (.ok v, 2, [FWCAPIClient.backoffWait 1])) ∧
    (∀ v, FWCAPIClient.retryableFail (outcomes 1) = true →
      FWCAPIClient.retryableFail (outcomes 2) = true →
      FWCAPIClient.handleOutcome (outcomes 3) = .ok v →
      FWCAPIClient.makeRequest outcomes =
        (.ok v, 3, [FWCAPIClient.backoffWait 1, FWCAPIClient.backoffWait 2])) ∧
    (FWCAPIClient.retryableFail (outcomes 1) = true →
      FWCAPIClient.retryableFail (outcomes 2) = true →
      FWCAPIClient.retryableFail (outcomes 3) = true →
      FWCAPIClient.makeRequest outcomes =
        (FWCAPIClient.handleOutcome (outcomes 3), 3,
          [FWCAPIClient.backoffWait 1, FWCAPIClient.backoffWait 2])) ∧
    (∀ e, FWCAPIClient.handleOutcome (outcomes 1) = .error e →
      FWCAPIClient.isRetryable e = false →
      FWCAPIClient.makeRequest outcomes = (.error e, 1, [])) ∧
    (∀ ra p, FWCAPIClient.handleOutcome (.response 401 ra p) =
        .error (.authError "Invalid or missing API key") ∧
      FWCAPIClient.handleOutcome (.response 429 ra p) =
        .error (.rateLimitError
          ("Rate limit exceeded. Retry after " ++ ra.getD "60" ++ " seconds")) ∧
      (∀ st, 400 ≤ st → st ≠ 401 → st ≠ 429 →
        FWCAPIClient.handleOutcome (.response st ra p) =
          .error (.apiError ("API request failed with status " ++ toString st))) ∧
      ∀ m, FWCAPIClient.isRetryable (.authError m) = false ∧
        FWCAPIClient.isRetryable (.rateLimitError m) = false ∧
        FWCAPIClient.isRetryable (.apiError m) = false) := by
  have hfail : ∀ k, FWCAPIClient.retryableFail (outcomes k) = true →
      ∃ e, FWCAPIClient.handleOutcome (outcomes k) = .error e ∧
        FWCAPIClient.isRetryable e = true := by
    intro k hk
    unfold FWCAPIClient.retryableFail at hk
    cases h : FWCAPIClient.handleOutcome (outcomes k) with
    | ok v => rw [h] at hk; cases hk
    | error e => rw [h] at hk; exact ⟨e, rfl, hk⟩
  refine ⟨?_, ?_, ?_, ?_, ?_, ?_⟩
  · intro v h1
    simp [FWCAPIClient.makeRequest, FWCAPIClient.requestGo, h1]
  · intro v h1 h2
    obtain ⟨e1, he1, hr1⟩ := hfail 1 h1
    simp [FWCAPIClient.makeRequest, FWCAPIClient.requestGo, he1, hr1, h2]
  · intro v h1 h2 h3
    obtain ⟨e1, he1, hr1⟩ := hfail 1 h1
    obtain ⟨e2, he2, hr2⟩ := hfail 2 h2
    simp [FWCAPIClient.makeRequest, FWCAPIClient.requestGo, he1, hr1, he2,
      hr2, h3]
  · intro h1 h2 h3
    obtain ⟨e1, he1, hr1⟩ := hfail 1 h1
    obtain ⟨e2, he2, hr2⟩ := hfail 2 h2
    simp [FWCAPIClient.makeRequest, FWCAPIClient.requestGo, he1, hr1, he2, hr2]
  · intro e h1 hnr
    simp [FWCAPIClient.makeRequest, FWCAPIClient.requestGo, h1, hnr]
  · intro ra p
    refine ⟨rfl, rfl, ?_, fun m => ⟨rfl, rfl, rfl⟩⟩
    intro st h400 h401 h429
    simp [FWCAPIClient.handleOutcome, h400, h401, h429]

/-- Witness for C4's amended statement: transport failures on attempts 1–2 and
success on attempt 3 yield the result after 3 attempts with backoff sleeps
1 s and 2 s. -/
theorem C4_retry_policy_amended_witness :
    FWCAPIClient.makeRequest
        (fun k => if k = 1 then .timeout else if k = 2 then .networkError
          else .response 200 none "ok") =
      (.ok "ok", 3, [1, 2]) := by
  have h := (C4_retry_policy_amended
    (fun k => if k = 1 then .timeout else if k = 2 then .networkError
      else .response 200 none "ok")).2.2.1 "ok" rfl rfl rfl
  rw [h]
  rfl

/-- C5: 25 requests invoked back-to-back (all within the same second) against
the declared 10-requests-per-second ceiling all start inside one rolling
1-second window — the client performs no rate limiting at all. -/
theorem C5_rate_limit_missing :
    FWCAPIClient.countStartedInWindow
        (FWCAPIClient.requestStartTimes (List.replicate 25 0)) 0 1 = 25 ∧
      FWCAPIClient.apiRateLimitDefault = 10 ∧
      25 > FWCAPIClient.apiRateLimitDefault := by
  decide

namespace BaseTransformer

theorem transformRecords_out (step : Rec → Except String Rec)
    (htruthy : ∀ r x, step r = .ok x → x ≠ []) :
    ∀ (i : Nat) (rs : List Rec),
      (transformRecords step i rs).1 =
        rs.filterMap (fun r => (step r).toOption) := by
  intro i rs
  induction rs generalizing i with
  | nil => rfl
  | cons r rs ih =>
    rw [transformRecords]
    cases h : step r with
    | ok x =>
      have hne : ¬x.isEmpty := by
        rw [List.isEmpty_iff]
        exact htruthy r x h
      simp [h, hne, Except.toOption, ih (i + 1)]
    | error e =>
      simp [h, Except.toOption, ih (i + 1)]

theorem transformRecords_errs (step : Rec → Except String Rec) :
    ∀ (i : Nat) (rs : List Rec),
      (transformRecords step i rs).2 =
        (rs.enumFrom i).filterMap
          (fun p => match step p.2 with
            | .error e => some (errMsg p.1 e)
            | .ok _ => none) := by
  intro i rs
  induction rs generalizing i with
  | nil => rfl
  | cons r rs ih =>
    rw [transformRecords]
    cases h : step r with
    | ok x => simp [h, List.enumFrom, ih (i + 1)]
    | error e => simp [h, List.enumFrom, ih (i + 1)]

theorem transformRecords_length (step : Rec → Except String Rec)
    (htruthy : ∀ r x, step r = .ok x → x ≠ []) :
    ∀ (i : Nat) (rs : List Rec),
      (transformRecords step i rs).1.length +
        (transformRecords step i rs).2.length = rs.length := by
  intro i rs
  induction rs generalizing i with
  | nil => rfl
  | cons r rs ih =>
    rw [transformRecords]
    cases h : step r with
    | ok x =>
      have hne : ¬x.isEmpty = true := by
        rw [List.isEmpty_iff]
        exact htruthy r x h
      simp only [h, if_neg hne, List.length_cons]
      have := ih (i + 1)
      omega
    | error e =>
      simp only [h, List.length_cons]
      have := ih (i + 1)
      omega

end BaseTransformer

/-- C6: for every per-record transformation (that returns non-empty records
on success, as every transformer of the repository does) and every input
list, the output is at most as long as the input, the length difference
equals the number of errors attached to the context, the errors are recorded
by record index, and every record whose transformation does not throw is
still transformed (exclusion of a throwing record never aborts the batch). -/
theorem C6_transformer_partial_failure (step : Rec → Except String Rec)
    (records : List Rec) (ctx : BaseTransformer.TransformCtx)
    (htruthy : ∀ r x, step r = .ok x → x ≠ [])
    (hctx : ctx.transformErrors = none) :
    (BaseTransformer.transform step records ctx).1.length ≤ records.length ∧
    (BaseTransformer.transform step records ctx).1.length +
        ((BaseTransformer.transform step records ctx).2.transformErrors.getD
          []).length = records.length ∧
    (BaseTransformer.transform step records ctx).1 =
      records.filterMap (fun r => (step r).toOption) ∧
    (BaseTransformer.transform step records ctx).2.transformErrors.getD [] =
      (records.enumFrom 0).filterMap
        (fun p => match step p.2 with
          | .error e => some (BaseTransformer.errMsg p.1 e)
          | .ok _ => none) := by
  have hlen := BaseTransformer.transformRecords_length step htruthy 0 records
  have herr : (BaseTransformer.transform step records ctx).2.transformErrors.getD
      [] = (BaseTransformer.transformRecords step 0 records).2 := by
    unfold BaseTransformer.transform
    by_cases he : (BaseTransformer.transformRecords step 0 records).2.isEmpty
    · rw [List.isEmpty_iff] at he
      simp [he, hctx]
    · simp [he]
  have hout : (BaseTransformer.transform step records ctx).1 =
      (BaseTransformer.transformRecords step 0 records).1 := rfl
  refine ⟨?_, ?_, ?_, ?_⟩
  · rw [hout]
    omega
  · rw [hout, herr]
    exact hlen
  · rw [hout]
    exact BaseTransformer.transformRecords_out step htruthy 0 records
  · rw [herr]
    exact BaseTransformer.transformRecords_errs step 0 records

/-- Witness for C6: transforming 10 records where index 4 lacks the required
field yields 9 canonical records and exactly one recorded error naming
index 4. -/
theorem C6_transformer_partial_failure_witness :
    (BaseTransformer.transform sampleCodeStep sampleRecords
        { transformErrors := none }).1.length = 9 ∧
      (BaseTransformer.transform sampleCodeStep sampleRecords
          { transformErrors := none }).2.transformErrors.getD [] =
        ["Record 4 transformation failed: missing required field"] := by
  have htruthy : ∀ r x, sampleCodeStep r = .ok x → x ≠ [] := by
    intro r x hx
    unfold sampleCodeStep at hx
    cases hc : getCol r "code" with
    | none => rw [hc] at hx; cases hx
    | some v =>
      rw [hc] at hx
      have : [("code", some v)] = x := by
        cases hx
        rfl
      rw [← this]
      simp
  have h := C6_transformer_partial_failure sampleCodeStep sampleRecords
    { transformErrors := none } htruthy rfl
  constructor
  · rw [h.2.2.1]
    rfl
  · rw [h.2.2.2]
    rfl

/-- C10: `Pipeline.run` is total — for every extractor/transformer/loader
behaviour it returns a `PipelineContext` (the model's return type; each
Python suspension point sits inside the `try`/`except` shown below): an
exception raised by a stage's `execute` is appended to the context's error
list, the `execute` wrappers turn exceptions inside `extract`/`transform`/
`load` bodies into FAILED step results, and a non-SUCCESS stage result
returns immediately — the equations below do not depend on the later stages'
behaviour, which is therefore never executed. -/
theorem C10_pipeline_run_total
    (exE : List (String × String) → CorePipeline.StageExec)
    (trE ldE : List Rec → CorePipeline.StageExec)
    (params : List (String × String)) (jobId : String) :
    (∀ c2 e,
      exE params { jobId := jobId, parameters := params } = (c2, .error e) →
      CorePipeline.pipelineRun exE trE ldE [] [] params jobId =
          CorePipeline.addError c2 e ∧
        e ∈ (CorePipeline.pipelineRun exE trE ldE [] [] params jobId).errors) ∧
    (∀ c2 res,
      exE params { jobId := jobId, parameters := params } = (c2, .ok res) →
      res.status ≠ .success →
      CorePipeline.pipelineRun exE trE ldE [] [] params jobId =
          CorePipeline.setStep c2 "extract" res ∧
        CorePipeline.getStep
          (CorePipeline.pipelineRun exE trE ldE [] [] params
            jobId).stepResults "extract" = some res) ∧
    (∀ c2 res c4 e,
      exE params { jobId := jobId, parameters := params } = (c2, .ok res) →
      res.status = .success →
      trE (CorePipeline.dataOr res.data)
          (CorePipeline.setStep c2 "extract" res) = (c4, .error e) →
      CorePipeline.pipelineRun exE trE ldE [] [] params jobId =
          CorePipeline.addError c4 e ∧
        e ∈ (CorePipeline.pipelineRun exE trE ldE [] [] params jobId).errors) ∧
    (∀ c2 res c4 res2,
      exE params { jobId := jobId, parameters := params } = (c2, .ok res) →
      res.status = .success →
      trE (CorePipeline.dataOr res.data)
          (CorePipeline.setStep c2 "extract" res) = (c4, .ok res2) →
      res2.status ≠ .success →
      CorePipeline.pipelineRun exE trE ldE [] [] params jobId =
        CorePipeline.setStep c4 "transform" res2) ∧
    (∀ c2 res c4 res2 c6 e,
      exE params { jobId := jobId, parameters := params } = (c2, .ok res) →
      res.status = .success →
      trE (CorePipeline.dataOr res.data)
          (CorePipeline.setStep c2 "extract" res) = (c4, .ok res2) →
      res2.status = .success →
      ldE (CorePipeline.dataOr res2.data)
          (CorePipeline.setStep c4 "transform" res2) = (c6, .error e) →
      CorePipeline.pipelineRun exE trE ldE [] [] params jobId =
        CorePipeline.addError c6 e) ∧
    (∀ c2 res c4 res2 c6 res3,
      exE params { jobId := jobId, parameters := params } = (c2, .ok res) →
      res.status = .success →
      trE (CorePipeline.dataOr res.data)
          (CorePipeline.setStep c2 "extract" res) = (c4, .ok res2) →
      res2.status = .success →
      ldE (CorePipeline.dataOr res2.data)
          (CorePipeline.setStep c4 "transform" res2) = (c6, .ok res3) →
      CorePipeline.pipelineRun exE trE ldE [] [] params jobId =
        CorePipeline.setStep c6 "load" res3) ∧
    (∀ (extract : List (String × String) → CorePipeline.PipelineCtx →
        CorePipeline.PipelineCtx × Except String (List Rec)) ps c c' e recs,
      (extract ps c = (c', .error e) →
        CorePipeline.extractorExecute extract ps c =
          (c', { status := .failed, error := some e })) ∧
      (extract ps c = (c', .ok recs) →
        CorePipeline.extractorExecute extract ps c =
          (c', { status := .success, data := some (.recs recs),
                 recordsProcessed := recs.length }))) ∧
    (∀ (ctx : CorePipeline.PipelineCtx) n r,
      CorePipeline.getStep (CorePipeline.setStep ctx n r).stepResults n =
        some r) := by
  refine ⟨?_, ?_, ?_, ?_, ?_, ?_, ?_, ?_⟩
  · intro c2 e h
    have hrun : CorePipeline.pipelineRun exE trE ldE [] [] params jobId =
        CorePipeline.addError c2 e := by
      simp [CorePipeline.pipelineRun, CorePipeline.runHooks, h]
    exact ⟨hrun, by rw [hrun]; simp [CorePipeline.addError]⟩
  · intro c2 res h hst
    have hrun : CorePipeline.pipelineRun exE trE ldE [] [] params jobId =
        CorePipeline.setStep c2 "extract" res := by
      simp [CorePipeline.pipelineRun, CorePipeline.runHooks, h, hst]
    exact ⟨hrun, by rw [hrun]; simp [CorePipeline.setStep, CorePipeline.getStep]⟩
  · intro c2 res c4 e h hst h2
    have hrun : CorePipeline.pipelineRun exE trE ldE [] [] params jobId =
        CorePipeline.addError c4 e := by
      simp [CorePipeline.pipelineRun, CorePipeline.runHooks, h, hst, h2]
    exact ⟨hrun, by rw [hrun]; simp [CorePipeline.addError]⟩
  · intro c2 res c4 res2 h hst h2 hst2
    simp [CorePipeline.pipelineRun, CorePipeline.runHooks, h, hst, h2, hst2]
  · intro c2 res c4 res2 c6 e h hst h2 hst2 h3
    simp [CorePipeline.pipelineRun, CorePipeline.runHooks, h, hst, h2, hst2, h3]
  · intro c2 res c4 res2 c6 res3 h hst h2 hst2 h3
    by_cases hst3 : res3.status = .success <;>
      simp [CorePipeline.pipelineRun, CorePipeline.runHooks, h, hst, h2, hst2,
        h3, hst3]
  · intro extract ps c c' e recs
    constructor
    · intro h
      simp [CorePipeline.extractorExecute, h]
    · intro h
      simp [CorePipeline.extractorExecute, h]
  · intro ctx n r
    simp [CorePipeline.setStep, CorePipeline.getStep]

/-- Witness for C10 at concrete stages: an extractor whose `execute` raises
`"boom"`, then one whose body raises (FAILED result, transform skipped), then
an all-success run. -/
theorem C10_pipeline_run_total_witness :
    (CorePipeline.pipelineRun (fun _ c => (c, .error "boom"))
        (fun _ c => (c, .ok { status := .success }))
        (fun _ c => (c, .ok { status := .success })) [] [] [] "j1").errors =
      ["boom"] ∧
    CorePipeline.pipelineRun
        (fun _ c => (c, .ok { status := .failed, error := some "down" }))
        (fun _ c => (c, .ok { status := .success }))
        (fun _ c => (c, .ok { status := .success })) [] [] [] "j2" =
      CorePipeline.setStep { jobId := "j2" } "extract"
        { status := .failed, error := some "down" } ∧
    CorePipeline.pipelineRun
        (fun _ c => (c, .ok { status := .success, data := some (.recs []) }))
        (fun _ c => (c, .ok { status := .success, data := some (.recs []) }))
        (fun _ c => (c, .ok { status := .success, data := some (.count 0) }))
        [] [] [] "j3" =
      CorePipeline.setStep
        (CorePipeline.setStep
          (CorePipeline.setStep { jobId := "j3" } "extract"
            { status := .success, data := some (.recs []) })
          "transform" { status := .success, data := some (.recs []) })
        "load" { status := .success, data := some (.count 0) } := by
  refine ⟨?_, ?_, ?_⟩
  · have h := (C10_pipeline_run_total (fun _ c => (c, .error "boom"))
      (fun _ c => (c, .ok { status := .success }))
      (fun _ c => (c, .ok { status := .success })) [] "j1").1
      { jobId := "j1" } "boom" rfl
    rw [h.1]
    rfl
  · exact ((C10_pipeline_run_total
      (fun _ c => (c, .ok { status := .failed, error := some "down" }))
      (fun _ c => (c, .ok { status := .success }))
      (fun _ c => (c, .ok { status := .success })) [] "j2").2.1
      { jobId := "j2" } { status := .failed, error := some "down" } rfl
      (by decide)).1
  · exact (C10_pipeline_run_total
      (fun _ c => (c, .ok { status := .success, data := some (.recs []) }))
      (fun _ c => (c, .ok { status := .success, data := some (.recs []) }))
      (fun _ c => (c, .ok { status := .success, data := some (.count 0) }))
      [] "j3").2.2.2.2.2.1
      { jobId := "j3" } { status := .success, data := some (.recs []) }
      (CorePipeline.setStep { jobId := "j3" } "extract"
        { status := .success, data := some (.recs []) })
      { status := .success, data := some (.recs []) }
      (CorePipeline.setStep
        (CorePipeline.setStep { jobId := "j3" } "extract"
          { status := .success, data := some (.recs []) })
        "transform" { status := .success, data := some (.recs []) })
      { status := .success, data := some (.count 0) }
      rfl rfl rfl rfl rfl

/-! ### Job-store lemmas and claims C3 / C7 / C8 / C9 -/

namespace StateManager

theorem getJob_map (g : JobRow → JobRow) (hg : ∀ r, (g r).jobId = r.jobId)
    (s : JobStore) (jid : String) :
    getJob (s.map g) jid = (getJob s jid).map g := by
  induction s with
  | nil => rfl
  | cons r rs ih =>
    by_cases h : r.jobId = jid
    · simp [getJob, hg, h]
    · simp [getJob, hg, h, ih]

theorem getJob_jobId {s : JobStore} {jid : String} {r : JobRow}
    (h : getJob s jid = some r) : r.jobId = jid := by
  induction s with
  | nil => cases h
  | cons r0 rs ih =>
    by_cases h0 : r0.jobId = jid
    · rw [getJob, if_pos h0, Option.some_inj] at h
      rw [← h]
      exact h0
    · rw [getJob, if_neg h0] at h
      exact ih h

end StateManager

/-- C8 counterexample: the administrative cleanup marks a pending job
`failed` (a terminal status) but leaves `completed_at` NULL. -/
theorem C8_cleanup_counterexample :
    ((StateManager.getJob
        (StateManager.cleanupPendingJobs
          (StateManager.createJob [] "j1" (some "full_etl") 0) none 100).1
        "j1").map (fun r => r.status) = some "failed") ∧
      ((StateManager.getJob
          (StateManager.cleanupPendingJobs
            (StateManager.createJob [] "j1" (some "full_etl") 0) none 100).1
          "j1").map (fun r => r.completedAt) = some none) := by
  constructor <;> rfl

/-- C8 (amended): `update_job_completion` does populate `completed_at` and
the final counts when it sets a status, but `update_job_status` and the
stale-job cleanup set a (possibly terminal) status while leaving
`completed_at` untouched — so a terminal job row may carry a NULL end
timestamp. -/
theorem C8_terminal_state_fields_amended
    (s : StateManager.JobStore) (jid st : String) (tr pr fr : Nat)
    (em : Option String) (now : Nat) (prog : Option Nat)
    (older : Option Nat) :
    ((StateManager.getJob
        (StateManager.updateJobCompletion s jid st tr pr fr em now) jid).map
        (fun r => (r.status, r.totalRecords, r.processedRecords,
          r.failedRecords, r.errorMessage, r.completedAt)) =
      (StateManager.getJob s jid).map
        (fun _ => (st, tr, pr, fr, em, some now))) ∧
    ((StateManager.getJob
        (StateManager.updateJobStatus s jid st prog em now) jid).map
        (fun r => r.completedAt) =
      (StateManager.getJob s jid).map (fun r => r.completedAt)) ∧
    ((StateManager.getJob
        (StateManager.updateJobStatus s jid st prog em now) jid).map
        (fun r => r.status) =
      (StateManager.getJob s jid).map (fun _ => st)) ∧
    ((StateManager.getJob (StateManager.cleanupPendingJobs s older now).1
        jid).map (fun r => r.completedAt) =
      (StateManager.getJob s jid).map (fun r => r.completedAt)) ∧
    ((StateManager.getJob s jid).map
        (fun r => StateManager.staleSelect older now r) = some true →
      (StateManager.getJob (StateManager.cleanupPendingJobs s older now).1
          jid).map (fun r => r.status) = some "failed") := by
  refine ⟨?_, ?_, ?_, ?_, ?_⟩
  · unfold StateManager.updateJobCompletion
    rw [StateManager.getJob_map _ (fun r => by by_cases h : r.jobId = jid <;>
      simp [h])]
    cases h : StateManager.getJob s jid with
    | none => rfl
    | some r => simp [StateManager.getJob_jobId h]
  · unfold StateManager.updateJobStatus
    rw [StateManager.getJob_map _ (fun r => by
      by_cases h : r.jobId = jid <;> cases em <;> simp [h])]
    cases h : StateManager.getJob s jid with
    | none => rfl
    | some r => cases em <;> simp [StateManager.getJob_jobId h]
  · unfold StateManager.updateJobStatus
    rw [StateManager.getJob_map _ (fun r => by
      by_cases h : r.jobId = jid <;> cases em <;> simp [h])]
    cases h : StateManager.getJob s jid with
    | none => rfl
    | some r => cases em <;> simp [StateManager.getJob_jobId h]
  · unfold StateManager.cleanupPendingJobs
    rw [StateManager.getJob_map _ (fun r => by
      by_cases h : StateManager.staleSelect older now r <;> simp [h])]
    cases h : StateManager.getJob s jid with
    | none => rfl
    | some r => by_cases hs : StateManager.staleSelect older now r <;> simp [hs]
  · intro hsel
    unfold StateManager.cleanupPendingJobs
    rw [StateManager.getJob_map _ (fun r => by
      by_cases h : StateManager.staleSelect older now r <;> simp [h])]
    cases h : StateManager.getJob s jid with
    | none => rw [h] at hsel; cases hsel
    | some r =>
      rw [h] at hsel
      simp only [Option.map] at hsel
      rw [Option.some_inj] at hsel
      simp [hsel]

/-- Witness for C8's amended statement on a store holding one fresh pending
job. -/
theorem C8_terminal_state_fields_amended_witness :
    ((StateManager.getJob
        (StateManager.updateJobCompletion
          (StateManager.createJob [] "j2" none 0) "j2" "success" 7 7 0 none 9)
        "j2").map
        (fun r => (r.status, r.totalRecords, r.processedRecords,
          r.failedRecords, r.errorMessage, r.completedAt)) =
      some ("success", 7, 7, 0, none, some 9)) ∧
      ((StateManager.getJob
          (StateManager.cleanupPendingJobs
            (StateManager.createJob [] "j2" none 0) none 9).1 "j2").map
          (fun r => r.status) = some "failed") := by
  have h := C8_terminal_state_fields_amended
    (StateManager.createJob [] "j2" none 0) "j2" "success" 7 7 0 none 9
    none none
  constructor
  · rw [h.1]
    rfl
  · rw [h.2.2.2.2 (by rfl)]

/-- C7: `run_full_etl` never reaches a terminal job state.  On any run the
success path calls `state_manager.update_job`, a method `StateManager` does
not define; the resulting `AttributeError` is caught by the `except` handler,
which calls `update_job` again and re-raises.  The run therefore propagates
the `AttributeError` instead of returning its summary, and the job row stays
`pending` — neither `success` nor `failed`, with no completion timestamp. -/
theorem C7_run_full_etl_never_terminal :
    ETLOrchestrator.runFullETL { jobId := "job1_awards" }
        (fun _ _ => { jobId := "c" }) (some ["A1"]) [] "job1" 5 =
      (.error ETLOrchestrator.attrErrorUpdateJob,
        [{ jobId := "job1", name := "full_etl", status := "pending",
           createdAt := 5, updatedAt := 5 }]) ∧
      ((StateManager.getJob
          (ETLOrchestrator.runFullETL { jobId := "job1_awards" }
            (fun _ _ => { jobId := "c" }) (some ["A1"]) [] "job1" 5).2
          "job1").map (fun r => (r.status, r.completedAt)) =
        some ("pending", none)) ∧
      StateManager.updateJobExists = false := by
  refine ⟨rfl, rfl, rfl⟩

/-- C3: fan-out isolation holds in the loop — with identifiers
`A1, A2, A3` and only `A2`'s child failing, the assembled summary holds a
successful entry for `A1` and `A3`, a recorded failure for `A2`, and `A3` is
processed after the failure — but `run_full_etl` then raises
(`StateManager.update_job` does not exist) and never returns that summary. -/
theorem C3_fanout_isolation_code_bug :
    (ETLOrchestrator.fanOut scenarioChild ["A1", "A2", "A3"]
        {}).classifications =
      [("A1", { jobId := "A1", hasErrors := false,
                steps := [("extract",
                  { status := "success", recordsProcessed := 0,
                    error := none })] }),
       ("A2", { jobId := "A2", hasErrors := true,
                steps := [("extract",
                  { status := "failed", recordsProcessed := 0,
                    error := some "auth error" })] }),
       ("A3", { jobId := "A3", hasErrors := false,
                steps := [("extract",
                  { status := "success", recordsProcessed := 0,
                    error := none })] })] ∧
      (ETLOrchestrator.fanOut scenarioChild ["A1", "A2", "A3"]
          {}).payRates.map Prod.fst = ["A1", "A2", "A3"] ∧
      (ETLOrchestrator.runFullETL { jobId := "job2_awards" } scenarioChild
          (some ["A1", "A2", "A3"]) [] "job2" 0).1 =
        .error ETLOrchestrator.attrErrorUpdateJob := by
  refine ⟨rfl, rfl, rfl⟩

/-- C9: a child-entity extraction without the parent identifier is reported
as an error, never silently skipped with an empty result:
`run_single_pipeline` raises `ValueError` for a non-awards pipeline with a
falsy `award_code`; `ClassificationsExtractor.extract` without award codes
raises (`context.data` — `PipelineContext` has no such attribute, making the
silent `return []` branch unreachable), it can never return successfully, and
through `Extractor.execute` the outcome is a FAILED step result. -/
theorem C9_missing_parent_reported (t : String) (ac : Option String)
    (fetch : String → Except String (List Rec))
    (codes : Option (List String)) :
    (ETLOrchestrator.pipelineTypes.contains t = true → t ≠ "awards" →
      ac.getD "" = "" →
      ETLOrchestrator.runSinglePipelineDispatch t ac =
        .error ("award_code is required for " ++ t ++ " pipeline")) ∧
    (codes = none ∨ codes = some [] →
      ClassificationsExtractor.extract codes fetch =
        .error ClassificationsExtractor.attrErrorData) ∧
    (∀ recs, ClassificationsExtractor.extract codes fetch ≠ .ok recs) ∧
    (∀ (ctx : CorePipeline.PipelineCtx) ps,
      codes = none ∨ codes = some [] →
      CorePipeline.extractorExecute
          (fun _ c => (c, ClassificationsExtractor.extract codes fetch)) ps
          ctx =
        (ctx, { status := .failed,
                error := some ClassificationsExtractor.attrErrorData })) := by
  refine ⟨?_, ?_, ?_, ?_⟩
  · intro h1 h2 h3
    unfold ETLOrchestrator.runSinglePipelineDispatch
    rw [if_neg (not_not_intro h1), if_pos ⟨h2, h3⟩]
  · rintro (rfl | rfl) <;> rfl
  · intro recs
    match codes with
    | none => simp [ClassificationsExtractor.extract]
    | some [] => simp [ClassificationsExtractor.extract]
    | some (c :: cs) =>
      cases hl : ClassificationsExtractor.extractLoop fetch (c :: cs) <;>
        simp [ClassificationsExtractor.extract, hl]
  · rintro ctx ps (rfl | rfl) <;>
      simp [CorePipeline.extractorExecute, ClassificationsExtractor.extract]

/-- Witness for C9 at `pipeline_type = "classifications"` with no award
code. -/
theorem C9_missing_parent_reported_witness :
    ETLOrchestrator.runSinglePipelineDispatch "classifications" none =
        .error "award_code is required for classifications pipeline" ∧
      ClassificationsExtractor.extract none (fun _ => .ok []) =
        .error ClassificationsExtractor.attrErrorData ∧
      CorePipeline.extractorExecute
          (fun _ c =>
            (c, ClassificationsExtractor.extract none (fun _ => .ok []))) []
          { jobId := "j" } =
        ({ jobId := "j" },
          { status := .failed,
            error := some ClassificationsExtractor.attrErrorData }) := by
  have h := C9_missing_parent_reported "classifications" none
    (fun _ => .ok []) none
  refine ⟨?_, h.2.1 (Or.inl rfl), h.2.2.2 { jobId := "j" } [] (Or.inl rfl)⟩
  have h1 := h.1 rfl (by decide) rfl
  rw [h1]
  rfl


end ETL
